import Mathlib

/-!
Verification development for the CalendarBot event-extraction pipeline
(`src/bot.py`).  The Python functions are shallowly embedded as executable
Lean definitions over `List Char` / `String`.  Regular-expression based
rewrites are embedded as explicit scanners that mirror the semantics of the
concrete patterns used in the source (leftmost, non-overlapping matching with
the exact backtracking behaviour those patterns can exhibit).  External
collaborators (the free-text datetime parsing library, the ISO-8601 parser of
the standard library, the generative extraction service and the current
clock) are modelled as parameters of an environment record, as the spec
treats them as interface contracts only.
-/

set_option maxRecDepth 16000
set_option maxHeartbeats 1000000

namespace CalendarBot

/-! ### Character classes (Python `re` classes restricted to the alphabets
the program manipulates: ASCII plus the Cyrillic block U+0400..U+04FF). -/

def isWsChar (c : Char) : Bool :=
  c = ' ' || c = '\t' || c = '\n' || c = '\r' || c = '\x0b' || c = '\x0c'

def isDigitChar (c : Char) : Bool :=
  '0' ≤ c && c ≤ '9'

def isAsciiLetterChar (c : Char) : Bool :=
  ('a' ≤ c && c ≤ 'z') || ('A' ≤ c && c ≤ 'Z')

def isCyrillicChar (c : Char) : Bool :=
  c.toNat ≥ 0x400 && c.toNat ≤ 0x4FF

/-- Python `\w` (word character) over the alphabets appearing in the inputs. -/
def isWordChar (c : Char) : Bool :=
  isDigitChar c || c = '_' || isAsciiLetterChar c || isCyrillicChar c

/-- The character class `[а-яA-Za-z]` of `_extract_title_fallback`
(lower-case Cyrillic range only, both ASCII cases). -/
def isTitleWordChar (c : Char) : Bool :=
  (c.toNat ≥ 0x430 && c.toNat ≤ 0x44F) || isAsciiLetterChar c

/-- Python `str.lower` restricted to ASCII and the Cyrillic letters used. -/
def pyToLower (c : Char) : Char :=
  if 'A' ≤ c && c ≤ 'Z' then Char.ofNat (c.toNat + 32)
  else if c.toNat ≥ 0x410 && c.toNat ≤ 0x42F then Char.ofNat (c.toNat + 32)
  else if c = 'Ё' then 'ё'
  else c

/-- Python `str.upper` (title-casing of a single character), same alphabets. -/
def pyToUpper (c : Char) : Char :=
  if 'a' ≤ c && c ≤ 'z' then Char.ofNat (c.toNat - 32)
  else if c.toNat ≥ 0x430 && c.toNat ≤ 0x44F then Char.ofNat (c.toNat - 32)
  else if c = 'ё' then 'Ё'
  else c

def pyLowerL (cs : List Char) : List Char :=
  cs.map pyToLower

/-- Python `str.capitalize`: first character upper-cased, the rest lowered. -/
def pyCapitalize (cs : List Char) : List Char :=
  match cs with
  | [] => []
  | c :: r => pyToUpper c :: pyLowerL r

/-! ### Python string primitives -/

/-- Python `str.strip()` (whitespace from both ends). -/
def pyStripL (cs : List Char) : List Char :=
  ((cs.dropWhile isWsChar).reverse.dropWhile isWsChar).reverse

/-- Python `str.strip(chars)` for an explicit character set. -/
def pyStripCharsL (cs : List Char) (set : List Char) : List Char :=
  ((cs.dropWhile (set.contains ·)).reverse.dropWhile (set.contains ·)).reverse

def pyStrip (s : String) : String :=
  String.mk (pyStripL s.toList)

/-- Python `str.splitlines` (the line breaks occurring in the inputs:
`\n`, `\r`, `\r\n`; no kept ends, no trailing empty piece). -/
def pySplitlines (cs : List Char) : List (List Char) :=
  go cs []
where
  go : List Char → List Char → List (List Char)
    | [], acc => if acc = [] then [] else [acc.reverse]
    | '\r' :: '\n' :: r, acc => acc.reverse :: go r []
    | '\r' :: r, acc => acc.reverse :: go r []
    | '\n' :: r, acc => acc.reverse :: go r []
    | c :: r, acc => go r (c :: acc)

/-- Python `str.split()` with no argument: split on whitespace runs,
discarding empty pieces. -/
def pySplitWs (cs : List Char) : List (List Char) :=
  go cs []
where
  go : List Char → List Char → List (List Char)
    | [], acc => if acc = [] then [] else [acc.reverse]
    | c :: r, acc =>
      if isWsChar c then (if acc = [] then go r [] else acc.reverse :: go r [])
      else go r (c :: acc)

/-- Python `str.split(sep)` for a single-character separator (keeps empty
pieces, as the built-in does). -/
def pySplitOn (sep : Char) (cs : List Char) : List (List Char) :=
  go cs []
where
  go : List Char → List Char → List (List Char)
    | [], acc => [acc.reverse]
    | c :: r, acc => if c = sep then acc.reverse :: go r [] else go r (c :: acc)

/-- First index at which `pat` occurs as a contiguous sublist (`str.find`,
with `none` standing for the -1 of a failed search). -/
def findSub (cs pat : List Char) : Option Nat :=
  go cs 0
where
  go : List Char → Nat → Option Nat
    | [], _ => if pat = [] then some 0 else none
    | c :: r, i =>
      if pat.isPrefixOf (c :: r) then some i else go r (i + 1)

/-! ### Digits and Python `int` -/

def digitVal (c : Char) : Nat :=
  c.toNat - 48

def digitsVal (cs : List Char) : Nat :=
  cs.foldl (fun a c => a * 10 + digitVal c) 0

def digitChar (d : Nat) : Char :=
  match d with
  | 0 => '0' | 1 => '1' | 2 => '2' | 3 => '3' | 4 => '4'
  | 5 => '5' | 6 => '6' | 7 => '7' | 8 => '8' | _ => '9'

/-- Python `f"{n:02d}"` for the values the program formats (0 ≤ n ≤ 99). -/
def pad2 (n : Nat) : List Char :=
  [digitChar (n / 10 % 10), digitChar (n % 10)]

/-- Python `int(str)`: optional surrounding whitespace, optional sign, at
least one digit, nothing else; `none` models the `ValueError`. -/
def pyIntOfChars (cs : List Char) : Option Int :=
  let cs := pyStripL cs
  match cs with
  | '+' :: r => (digitsOnly r).map (Int.ofNat ·)
  | '-' :: r => (digitsOnly r).map (fun n => -(n : Int))
  | r => (digitsOnly r).map (Int.ofNat ·)
where
  digitsOnly (r : List Char) : Option Nat :=
    if r ≠ [] && r.all isDigitChar then some (digitsVal r) else none

def pyIntOfString (s : String) : Option Int :=
  pyIntOfChars s.toList

/-! ### Generic matching helpers -/

/-- Word boundary `\b` immediately before a word character: the previous
character (if any) must not be a word character. -/
def boundaryOk (prev : Option Char) : Bool :=
  match prev with
  | none => true
  | some p => !isWordChar p

/-- Word boundary `\b` immediately after a word character: the next
character (if any) must not be a word character. -/
def boundaryAfter (rest : List Char) : Bool :=
  match rest with
  | [] => true
  | c :: _ => !isWordChar c

/-- Case-insensitive literal prefix match (pattern given lower-case);
returns the matched original characters and the remainder. -/
def ciLit : List Char → List Char → Option (List Char × List Char)
  | [], cs => some ([], cs)
  | _ :: _, [] => none
  | p :: ps, c :: cs =>
    if pyToLower c = p then (ciLit ps cs).map (fun m => (c :: m.1, m.2)) else none

def firstSome {α β : Type} (f : α → Option β) : List α → Option β
  | [] => none
  | a :: r =>
    match f a with
    | some b => some b
    | none => firstSome f r

/-! ### `_ru_hour_to_24h` and `_normalize_russian_word_time` (bot.py 51-98) -/

/-- `_RU_NUM_WORDS` (bot.py 31-48). -/
def ruNumWords : List (List Char × Nat) :=
  [("ноль".toList, 0), ("один".toList, 1), ("одна".toList, 1), ("одно".toList, 1),
   ("два".toList, 2), ("две".toList, 2), ("три".toList, 3), ("четыре".toList, 4),
   ("пять".toList, 5), ("шесть".toList, 6), ("семь".toList, 7), ("восемь".toList, 8),
   ("девять".toList, 9), ("десять".toList, 10), ("одиннадцать".toList, 11),
   ("двенадцать".toList, 12)]

/-- The word alternatives of the hour group of the pattern at bot.py 91,
in the order the alternation lists them. -/
def ruHourWordAlts : List (List Char) :=
  ["один".toList, "одна".toList, "два".toList, "две".toList, "три".toList,
   "четыре".toList, "пять".toList, "шесть".toList, "семь".toList, "восемь".toList,
   "девять".toList, "десять".toList, "одиннадцать".toList, "двенадцать".toList]

def ruPartWords : List (List Char) :=
  ["утра".toList, "дня".toList, "вечера".toList, "ночи".toList]

/-- `_ru_hour_to_24h` (bot.py 51-64); `part` is the matched day-part word,
lowered and stripped as in the source. -/
def ru_hour_to_24h (hour : Nat) (part : List Char) : Nat :=
  let p := pyStripL (pyLowerL part)
  if p = "вечера".toList || p = "дня".toList then
    (if 1 ≤ hour && hour ≤ 11 then hour + 12 else hour)
  else if p = "ночи".toList then
    (if hour = 12 then 0 else hour)
  else hour

/-- The hour-group alternatives `\d{1,2}|один|...|двенадцать` in regex
order (two digits greedily before one), each with its remainder. -/
def ruHourCands (cs : List Char) : List (List Char × List Char) :=
  (match cs with
   | a :: b :: r => if isDigitChar a && isDigitChar b then [([a, b], r)] else []
   | _ => []) ++
  (match cs with
   | a :: r => if isDigitChar a then [([a], r)] else []
   | [] => []) ++
  ruHourWordAlts.filterMap (fun w => ciLit w cs)

/-- The day-part group `\s*(?P<part>утра|дня|вечера|ночи)\b`. -/
def ruPartAfterWs (cs : List Char) : Option (List Char × List Char) :=
  let r := cs.dropWhile isWsChar
  match firstSome (fun w => ciLit w r) ruPartWords with
  | some (m, rest) => if boundaryAfter rest then some (m, rest) else none
  | none => none

/-- The suffix `(?:\s*час(?:а|ов)?)?\s*(?P<part>...)\b` after the hour
group: the optional `час` group is tried greedily (with suffix `а`, then
`ов`, then bare), falling back to the group-absent reading. -/
def ruAfterHour (cs : List Char) : Option (List Char × List Char) :=
  let withGroup : Option (List Char × List Char) :=
    let r1 := cs.dropWhile isWsChar
    match ciLit "час".toList r1 with
    | some (_, r2) =>
      firstSome (fun alt =>
          match alt with
          | some sfx =>
            match ciLit sfx r2 with
            | some (_, r3) => ruPartAfterWs r3
            | none => none
          | none => ruPartAfterWs r2)
        [some "а".toList, some "ов".toList, none]
    | none => none
  match withGroup with
  | some x => some x
  | none => ruPartAfterWs cs

/-- One attempted match of the pattern at bot.py 90-96, starting at a `в`
with a word boundary before it.  Returns the emitted replacement (the
rewritten time, or the match itself when the hour is unrecognized or out of
range, exactly as `repl` does), the last original character of the match
(for subsequent boundary checks) and the remainder. -/
def tryWordTime (cs : List Char) : Option (List Char × Char × List Char) :=
  match cs with
  | [] => none
  | v :: cs1 =>
    if pyToLower v = 'в' then
      let ws1 := cs1.takeWhile isWsChar
      if ws1 = [] then none
      else
        let cs2 := cs1.drop ws1.length
        match firstSome (fun cand =>
            (ruAfterHour cand.2).map (fun pr => (cand.1, pr.1, pr.2))) (ruHourCands cs2) with
        | none => none
        | some (hourRaw, part, rest) =>
          let matched := cs.take (cs.length - rest.length)
          let lastC := (matched.getLast?).getD v
          let raw := pyStripL (pyLowerL hourRaw)
          let h? : Option Nat :=
            if raw ≠ [] && raw.all isDigitChar then some (digitsVal raw)
            else (ruNumWords.lookup raw)
          match h? with
          | none => some (matched, lastC, rest)
          | some h =>
            if h > 23 then some (matched, lastC, rest)
            else some (pad2 (ru_hour_to_24h h part) ++ [':', '0', '0'], lastC, rest)
    else none

def ruWordTimeGo : Nat → Option Char → List Char → List Char
  | 0, _, cs => cs
  | _ + 1, _, [] => []
  | fuel + 1, prev, c :: rest =>
    if boundaryOk prev && pyToLower c = 'в' then
      match tryWordTime (c :: rest) with
      | some (rep, lastC, rest2) => rep ++ ruWordTimeGo fuel (some lastC) rest2
      | none => c :: ruWordTimeGo fuel (some c) rest
    else c :: ruWordTimeGo fuel (some c) rest

/-- `_normalize_russian_word_time` (bot.py 67-98). -/
def normalize_russian_word_time (cs : List Char) : List Char :=
  ruWordTimeGo (cs.length + 1) none cs

/-! ### The dash/dot and `h` time rewrites (bot.py 104-105) -/

/-- One attempted match of `\b(\d{1,2})[-.](\d{2})\b` starting at a digit
with a word boundary before it (two digits tried greedily first). -/
def tryDashDot (cs : List Char) : Option (List Char × Char × List Char) :=
  let one : Option (List Char × Char × List Char) :=
    match cs with
    | a :: s :: c :: d :: r =>
      if isDigitChar a && (s = '-' || s = '.') && isDigitChar c && isDigitChar d
          && boundaryAfter r
      then some ([a, ':', c, d], d, r) else none
    | _ => none
  match cs with
  | a :: b :: s :: c :: d :: r =>
    if isDigitChar a && isDigitChar b && (s = '-' || s = '.') && isDigitChar c
        && isDigitChar d && boundaryAfter r
    then some ([a, b, ':', c, d], d, r) else one
  | _ => one

def dashDotGo : Nat → Option Char → List Char → List Char
  | 0, _, cs => cs
  | _ + 1, _, [] => []
  | fuel + 1, prev, c :: rest =>
    if boundaryOk prev && isDigitChar c then
      match tryDashDot (c :: rest) with
      | some (rep, lastC, rest2) => rep ++ dashDotGo fuel (some lastC) rest2
      | none => c :: dashDotGo fuel (some c) rest
    else c :: dashDotGo fuel (some c) rest

def subDashDot (cs : List Char) : List Char :=
  dashDotGo (cs.length + 1) none cs

/-- One attempted match of `\b(\d{1,2})\s*h\s*(\d{2})\b` (case-insensitive)
starting at a digit with a word boundary before it. -/
def tryHTime (cs : List Char) : Option (List Char × Char × List Char) :=
  let cont (g1 : List Char) (r0 : List Char) : Option (List Char × Char × List Char) :=
    let r1 := r0.dropWhile isWsChar
    match r1 with
    | h :: r2 =>
      if h = 'h' || h = 'H' then
        let r3 := r2.dropWhile isWsChar
        match r3 with
        | c :: d :: r =>
          if isDigitChar c && isDigitChar d && boundaryAfter r then
            some (g1 ++ ':' :: [c, d], d, r)
          else none
        | _ => none
      else none
    | [] => none
  match cs with
  | a :: b :: r0 =>
    if isDigitChar a && isDigitChar b then
      match cont [a, b] r0 with
      | some x => some x
      | none => if isDigitChar a then cont [a] (b :: r0) else none
    else if isDigitChar a then cont [a] (b :: r0) else none
  | [a] => if isDigitChar a then cont [a] [] else none
  | [] => none

def hTimeGo : Nat → Option Char → List Char → List Char
  | 0, _, cs => cs
  | _ + 1, _, [] => []
  | fuel + 1, prev, c :: rest =>
    if boundaryOk prev && isDigitChar c then
      match tryHTime (c :: rest) with
      | some (rep, lastC, rest2) => rep ++ hTimeGo fuel (some lastC) rest2
      | none => c :: hTimeGo fuel (some c) rest
    else c :: hTimeGo fuel (some c) rest

def subHTime (cs : List Char) : List Char :=
  hTimeGo (cs.length + 1) none cs

/-- `_normalize_text` (bot.py 101-106). -/
def normalize_text (s : String) : String :=
  let t := pyStripL s.toList
  let t := normalize_russian_word_time t
  let t := subDashDot t
  let t := subHTime t
  String.mk t

/-! ### Word-bounded alternation search (the `\b(a|b|...)\b` searches) -/

inductive RTok where
  | lit : List Char → RTok
  | ws : RTok
  | opt : List Char → RTok

/-- Match a token sequence (literal pieces case-insensitively, `\s+` runs,
greedy optional literals) returning the remainder. -/
def matchToks : List RTok → List Char → Option (List Char)
  | [], cs => some cs
  | RTok.lit l :: ts, cs =>
    match ciLit l cs with
    | some m => matchToks ts m.2
    | none => none
  | RTok.ws :: ts, cs =>
    let r := cs.dropWhile isWsChar
    if r.length < cs.length then matchToks ts r else none
  | RTok.opt l :: ts, cs =>
    match ciLit l cs with
    | some m =>
      (match matchToks ts m.2 with
       | some x => some x
       | none => matchToks ts cs)
    | none => matchToks ts cs

def altsMatchHere (alts : List (List RTok)) (cs : List Char) : Bool :=
  alts.any (fun a =>
    match matchToks a cs with
    | some r => boundaryAfter r
    | none => false)

def searchAltsGo (alts : List (List RTok)) : Nat → Option Char → List Char → Bool
  | 0, _, _ => false
  | fuel + 1, prev, cs =>
    (boundaryOk prev && altsMatchHere alts cs) ||
      (match cs with
       | [] => false
       | c :: r => searchAltsGo alts fuel (some c) r)

/-- `re.search` of a word-bounded alternation anywhere in the text. -/
def searchAlts (alts : List (List RTok)) (cs : List Char) : Bool :=
  searchAltsGo alts (cs.length + 1) none cs

/-- `\b(к\s+зубному|к\s+стоматологу|стоматолог)\b` (bot.py 172, 234). -/
def dentalAlts : List (List RTok) :=
  [[RTok.lit "к".toList, RTok.ws, RTok.lit "зубному".toList],
   [RTok.lit "к".toList, RTok.ws, RTok.lit "стоматологу".toList],
   [RTok.lit "стоматолог".toList]]

/-- `\b(к\s+врачу|прием\s+у\s+врача|прие?м\s+у\s+врача|врач)\b` (bot.py 175). -/
def doctorAlts : List (List RTok) :=
  [[RTok.lit "к".toList, RTok.ws, RTok.lit "врачу".toList],
   [RTok.lit "прием".toList, RTok.ws, RTok.lit "у".toList, RTok.ws, RTok.lit "врача".toList],
   [RTok.lit "при".toList, RTok.opt "е".toList, RTok.lit "м".toList, RTok.ws,
    RTok.lit "у".toList, RTok.ws, RTok.lit "врача".toList],
   [RTok.lit "врач".toList]]

/-- `\b(налоговую|налоговая|налоговая\s+инспекция|ифнс)\b` (bot.py 178, 232). -/
def taxAlts : List (List RTok) :=
  [[RTok.lit "налоговую".toList], [RTok.lit "налоговая".toList],
   [RTok.lit "налоговая".toList, RTok.ws, RTok.lit "инспекция".toList],
   [RTok.lit "ифнс".toList]]

/-- `\b(документ|документы|паспорт|очередь)\b` (bot.py 488). -/
def bannedTitleAlts : List (List RTok) :=
  [[RTok.lit "документ".toList], [RTok.lit "документы".toList],
   [RTok.lit "паспорт".toList], [RTok.lit "очередь".toList]]

/-- `\b(час|часа|часов|h|hour)\b` (bot.py 294). -/
def unitHourAlts : List (List RTok) :=
  [[RTok.lit "час".toList], [RTok.lit "часа".toList], [RTok.lit "часов".toList],
   [RTok.lit "h".toList], [RTok.lit "hour".toList]]

/-! ### The anchored lead strips of the title guessers (bot.py 164-169,
181-186, 224-229) -/

/-- `^\s*(есть|будет|нужно|надо|хочу|у\s+меня|у\s+нас)\b\s*[:\-—]*\s*`
replaced by the empty string (IGNORECASE). -/
def stripLeadFiller1 (cs : List Char) : List Char :=
  let r0 := cs.dropWhile isWsChar
  let alts : List (List RTok) :=
    [[RTok.lit "есть".toList], [RTok.lit "будет".toList], [RTok.lit "нужно".toList],
     [RTok.lit "надо".toList], [RTok.lit "хочу".toList],
     [RTok.lit "у".toList, RTok.ws, RTok.lit "меня".toList],
     [RTok.lit "у".toList, RTok.ws, RTok.lit "нас".toList]]
  match firstSome (fun a =>
      match matchToks a r0 with
      | some r => if boundaryAfter r then some r else none
      | none => none) alts with
  | some r1 =>
    let r2 := r1.dropWhile isWsChar
    let r3 := r2.dropWhile (fun c => c = ':' || c = '-' || c = '—')
    r3.dropWhile isWsChar
  | none => cs

/-- `^\s*(запиши(те)?\s+меня|запланируй|добавь|поставь|назначь)\b\s*`
replaced by the empty string (IGNORECASE, bot.py 181-186). -/
def stripLeadFiller2 (cs : List Char) : List Char :=
  let r0 := cs.dropWhile isWsChar
  let alts : List (List RTok) :=
    [[RTok.lit "запиши".toList, RTok.opt "те".toList, RTok.ws, RTok.lit "меня".toList],
     [RTok.lit "запланируй".toList], [RTok.lit "добавь".toList],
     [RTok.lit "поставь".toList], [RTok.lit "назначь".toList]]
  match firstSome (fun a =>
      match matchToks a r0 with
      | some r => if boundaryAfter r then some r else none
      | none => none) alts with
  | some r1 => r1.dropWhile isWsChar
  | none => cs

/-! ### The `$`-anchored tail strips -/

def noNLChar (cs : List Char) : Bool :=
  cs.all (· ≠ '\n')

/-- `.*$` on the remainder: succeeds when the remainder contains no newline
other than possibly a single final one; returns what `$` leaves behind. -/
def tailDollar (cs : List Char) : Option (List Char) :=
  if noNLChar cs then some []
  else
    match cs.getLast? with
    | some '\n' => if noNLChar cs.dropLast then some ['\n'] else none
    | _ => none

def tailStripGo (try_ : List Char → Option (List Char)) : Nat → List Char → List Char
  | 0, cs => cs
  | _ + 1, [] => []
  | fuel + 1, c :: rest =>
    if isWsChar c then
      match try_ (c :: rest) with
      | some kept => kept
      | none => c :: tailStripGo try_ fuel rest
    else c :: tailStripGo try_ fuel rest

/-- `re.sub(pat, "", t)` for a `\s+...$` tail pattern: everything from the
first matching position onward is removed (up to a kept final newline). -/
def tailStrip (try_ : List Char → Option (List Char)) (cs : List Char) : List Char :=
  tailStripGo try_ (cs.length + 1) cs

/-- `\s+на\s+\S+.*$` (IGNORECASE, bot.py 187). -/
def tryNaTail (cs : List Char) : Option (List Char) :=
  let ws1 := cs.takeWhile isWsChar
  if ws1 = [] then none
  else
    match ciLit "на".toList (cs.drop ws1.length) with
    | some (_, r2) =>
      let ws2 := r2.takeWhile isWsChar
      if ws2 = [] then none
      else
        let r3 := r2.drop ws2.length
        let nw := r3.takeWhile (fun c => !isWsChar c)
        if nw = [] then none else tailDollar (r3.drop nw.length)
    | none => none

/-- The clock shape `\d{1,2}:\d{2}` with no trailing boundary, two digits
greedily first; returns the matched characters and the remainder. -/
def clockNoB (cs : List Char) : Option (List Char × List Char) :=
  match cs with
  | a :: b :: ':' :: c :: d :: r =>
    if isDigitChar a && isDigitChar b && isDigitChar c && isDigitChar d then
      some ([a, b, ':', c, d], r)
    else none
  | a :: ':' :: c :: d :: r =>
    if isDigitChar a && isDigitChar c && isDigitChar d then
      some ([a, ':', c, d], r)
    else none
  | _ => none

/-- `\s+в\s+\d{1,2}:\d{2}.*$` (IGNORECASE, bot.py 188, 249). -/
def tryVTimeTail (cs : List Char) : Option (List Char) :=
  let ws1 := cs.takeWhile isWsChar
  if ws1 = [] then none
  else
    match ciLit "в".toList (cs.drop ws1.length) with
    | some (_, r2) =>
      let ws2 := r2.takeWhile isWsChar
      if ws2 = [] then none
      else
        match clockNoB (r2.drop ws2.length) with
        | some (_, r3) => tailDollar r3
        | none => none
    | none => none

/-- `\s+\d{1,2}:\d{2}.*$` (bot.py 248). -/
def tryTitleTimeTail (cs : List Char) : Option (List Char) :=
  let ws1 := cs.takeWhile isWsChar
  if ws1 = [] then none
  else
    match clockNoB (cs.drop ws1.length) with
    | some (_, r2) => tailDollar r2
    | none => none

/-- `\s+\d{1,2}\s+[а-яA-Za-z]+\s+\d{2,4}.*$` (IGNORECASE, bot.py 247). -/
def tryDateWordsTail (cs : List Char) : Option (List Char) :=
  let ws1 := cs.takeWhile isWsChar
  if ws1 = [] then none
  else
    let r1 := cs.drop ws1.length
    let dr := r1.takeWhile isDigitChar
    if dr = [] || dr.length > 2 then none
    else
      let r2 := r1.drop dr.length
      let ws2 := r2.takeWhile isWsChar
      if ws2 = [] then none
      else
        let r3 := r2.drop ws2.length
        let lt := r3.takeWhile isTitleWordChar
        if lt = [] then none
        else
          let r4 := r3.drop lt.length
          let ws3 := r4.takeWhile isWsChar
          if ws3 = [] then none
          else
            let r5 := r4.drop ws3.length
            let d2 := r5.takeWhile isDigitChar
            if d2.length < 2 then none else tailDollar (r5.drop d2.length)

/-! ### `_extract_first_time` and `_extract_time_range` (bot.py 109-129) -/

/-- One attempted match of `\b(\d{1,2}):(\d{2})\b` at the current position,
returning the two digit groups. -/
def tryClock (cs : List Char) : Option (List Char × List Char) :=
  match cs with
  | a :: b :: ':' :: c :: d :: r =>
    if isDigitChar a && isDigitChar b && isDigitChar c && isDigitChar d
        && boundaryAfter r
    then some ([a, b], [c, d])
    else none
  | a :: ':' :: c :: d :: r =>
    if isDigitChar a && isDigitChar c && isDigitChar d && boundaryAfter r
    then some ([a], [c, d])
    else none
  | _ => none

def firstTimeSearchGo : Nat → Option Char → List Char → Option (List Char × List Char)
  | 0, _, _ => none
  | fuel + 1, prev, cs =>
    match cs with
    | [] => none
    | c :: r =>
      match (if boundaryOk prev && isDigitChar c then tryClock (c :: r) else none) with
      | some g => some g
      | none => firstTimeSearchGo fuel (some c) r

/-- The `re.search` of bot.py 122: the first match of `\b(\d{1,2}):(\d{2})\b`. -/
def firstTimeSearch (cs : List Char) : Option (List Char × List Char) :=
  firstTimeSearchGo (cs.length + 1) none cs

def timeFmt (h m : Nat) : String :=
  String.mk (pad2 h ++ ':' :: pad2 m)

/-- `_extract_first_time` (bot.py 121-129). -/
def extract_first_time (s : String) : Option String :=
  match firstTimeSearch s.toList with
  | none => none
  | some (g1, g2) =>
    let hh := digitsVal g1
    let mm := digitsVal g2
    if hh ≤ 23 && mm ≤ 59 then some (timeFmt hh mm) else none

/-- One attempted match of
`\b(?:в\s*)?(\d{1,2}:\d{2})\s*(?:до|\-|–|—|to)\s*(\d{1,2}:\d{2})\b`
at the current position. -/
def tryRangeAt (cs : List Char) : Option (List Char × List Char) :=
  let afterTime1 (g1 : List Char) (r : List Char) : Option (List Char × List Char) :=
    let r1 := r.dropWhile isWsChar
    let sep : Option (List Char) :=
      match ciLit "до".toList r1 with
      | some m => some m.2
      | none =>
        match r1 with
        | '-' :: t => some t
        | '–' :: t => some t
        | '—' :: t => some t
        | _ =>
          match ciLit "to".toList r1 with
          | some m => some m.2
          | none => none
    match sep with
    | some r2 =>
      match clockNoB (r2.dropWhile isWsChar) with
      | some (g2, r4) => if boundaryAfter r4 then some (g1, g2) else none
      | none => none
    | none => none
  match cs with
  | [] => none
  | c :: r =>
    if pyToLower c = 'в' then
      match clockNoB (r.dropWhile isWsChar) with
      | some (g1, r2) => afterTime1 g1 r2
      | none => none
    else if isDigitChar c then
      match clockNoB cs with
      | some (g1, r2) => afterTime1 g1 r2
      | none => none
    else none

def rangeSearchGo : Nat → Option Char → List Char → Option (List Char × List Char)
  | 0, _, _ => none
  | fuel + 1, prev, cs =>
    match cs with
    | [] => none
    | c :: r =>
      match (if boundaryOk prev then tryRangeAt (c :: r) else none) with
      | some g => some g
      | none => rangeSearchGo fuel (some c) r

/-- `_extract_time_range` (bot.py 109-118). -/
def extract_time_range (s : String) : Option String × Option String :=
  match rangeSearchGo (s.toList.length + 1) none s.toList with
  | some (g1, g2) => (some (String.mk g1), some (String.mk g2))
  | none => (none, none)

/-! ### Title, notes and duration guessers (bot.py 160-252, 321-343) -/

/-- The strip set `" -—:;,.\t\n"` used by the guessers. -/
def titleStripSet : List Char :=
  [' ', '-', '—', ':', ';', ',', '.', '\t', '\n']

/-- `_fallback_title` (bot.py 160-194).  The first `lowered` binding of the
source (line 162) is dead — it is recomputed right after the lead strip. -/
def fallback_title (s : String) : String :=
  let t := pyStripL s.toList
  let t := stripLeadFiller1 t
  let lw := pyLowerL t
  if searchAlts dentalAlts lw then "Зубной врач"
  else if searchAlts doctorAlts lw then "Приём у врача"
  else if searchAlts taxAlts lw then "Налоговая"
  else
    let t := stripLeadFiller2 t
    let t := tailStrip tryNaTail t
    let t := tailStrip tryVTimeTail t
    let t := pyStripCharsL t titleStripSet
    if t = [] then "Встреча" else String.mk (pyCapitalize (t.take 120))

def notesMarkers : List (List Char) :=
  ["документы".toList, "документ".toList, "взять".toList, "принести".toList,
   "не забыть".toList, "очередь".toList]

/-- The earliest `str.find` hit among a list of markers (bot.py 209-213). -/
def minFindIndex (cs : List Char) (markers : List (List Char)) : Option Nat :=
  (markers.filterMap (findSub cs)).foldl
    (fun acc i =>
      match acc with
      | none => some i
      | some j => some (min i j)) none

/-- `_extract_notes_fallback` (bot.py 197-219). -/
def extract_notes_fallback (s : String) : String :=
  let t := pyStripL s.toList
  let lw := pyLowerL t
  match minFindIndex lw notesMarkers with
  | none => ""
  | some i => String.mk ((pyStripCharsL (t.drop i) titleStripSet).take 800)

def cutMarkers : List (List Char) :=
  ["документы".toList, "документ".toList, "очередь".toList, "принести".toList,
   "взять".toList, "не забыть".toList]

/-- `_extract_title_fallback` (bot.py 222-252). -/
def extract_title_fallback (s : String) : String :=
  let t := pyStripL s.toList
  let t := stripLeadFiller1 t
  let lw := pyLowerL t
  if searchAlts taxAlts lw then "Налоговая"
  else if searchAlts dentalAlts lw then "Зубной врач"
  else
    let t :=
      match minFindIndex lw cutMarkers with
      | some i => t.take i
      | none => t
    let t := tailStrip tryDateWordsTail t
    let t := tailStrip tryTitleTimeTail t
    let t := tailStrip tryVTimeTail t
    let t := pyStripCharsL t titleStripSet
    if t = [] then "Встреча" else String.mk (pyCapitalize (t.take 80))

/-- One `token` iteration of `_fallback_duration_minutes` (bot.py 323-341):
`none` covers both a missing token and the swallowed `IndexError` /
`ValueError` of the `try` block, as well as an out-of-range number. -/
def durTryToken (lw : List Char) (tok : List Char) (lo hi mult : Nat) : Option Nat :=
  match findSub lw tok with
  | none => none
  | some i =>
    let left := lw.take i
    match (pySplitWs left).getLast? with
    | none => none
    | some w =>
      let ds := w.filter isDigitChar
      if ds = [] then none
      else
        let num := digitsVal ds
        if lo ≤ num && num ≤ hi then some (num * mult) else none

/-- `_fallback_duration_minutes` (bot.py 321-343). -/
def fallback_duration_minutes (s : String) : Nat :=
  let lw := pyLowerL s.toList
  match durTryToken lw " минут".toList 5 1440 1 with
  | some k => k
  | none =>
  match durTryToken lw " мин".toList 5 1440 1 with
  | some k => k
  | none =>
  match durTryToken lw "min".toList 5 1440 1 with
  | some k => k
  | none =>
  match durTryToken lw "minutes".toList 5 1440 1 with
  | some k => k
  | none =>
  match durTryToken lw " час".toList 1 24 60 with
  | some k => k
  | none =>
  match durTryToken lw " часа".toList 1 24 60 with
  | some k => k
  | none =>
  match durTryToken lw " часов".toList 1 24 60 with
  | some k => k
  | none =>
  match durTryToken lw "hour".toList 1 24 60 with
  | some k => k
  | none =>
  match durTryToken lw "hours".toList 1 24 60 with
  | some k => k
  | none => 60

/-! ### `_extract_explicit_fields` (bot.py 255-318) -/

/-- The separator-and-group suffix `[-—:=]+\s*(.+)$` of every labeled-line
pattern (with the greedy backtracking a fully blank group triggers). -/
def sepRestGroup (cs : List Char) : Option (List Char) :=
  let seps := cs.takeWhile (fun c => c = '-' || c = '—' || c = ':' || c = '=')
  if seps = [] then none
  else
    let rest := cs.drop seps.length
    let r := rest.dropWhile isWsChar
    if r ≠ [] then some r
    else if rest ≠ [] then (rest.getLast?).map (fun c => [c])
    else if seps.length ≥ 2 then (seps.getLast?).map (fun c => [c])
    else none

/-- A plain labeled-line pattern `^(?:lab1|lab2|...)\s*[-—:=]+\s*(.+)$`. -/
def matchLabeledLine (labels : List (List Char)) (line : List Char) : Option (List Char) :=
  firstSome (fun lab =>
    match ciLit lab line with
    | some (_, r) => sepRestGroup (r.dropWhile isWsChar)
    | none => none) labels

/-- The title line pattern, with its optional `это` (bot.py 261). -/
def matchTitleLine (line : List Char) : Option (List Char) :=
  firstSome (fun lab =>
    match ciLit lab line with
    | some (_, r) =>
      let r1 := r.dropWhile isWsChar
      (match ciLit "это".toList r1 with
       | some (_, r2) =>
         (match sepRestGroup (r2.dropWhile isWsChar) with
          | some g => some g
          | none => sepRestGroup r1)
       | none => sepRestGroup r1)
    | none => none) ["титул".toList, "заголовок".toList, "title".toList]

def closeParenIdxs (cs : List Char) : List Nat :=
  ((List.range cs.length).filter (fun j => cs.get? j = some ')')).reverse

/-- The duration line pattern, with its optional parenthesized unit
`(?:\(.*\))?` (bot.py 265-268); the last closing parenthesis is taken
greedily, with backtracking. -/
def matchDurationLine (line : List Char) : Option (List Char) :=
  firstSome (fun lab =>
    match ciLit lab line with
    | some (_, r) =>
      let r1 := r.dropWhile isWsChar
      (match r1 with
       | '(' :: _ =>
         (match firstSome
             (fun j => sepRestGroup ((r1.drop (j + 1)).dropWhile isWsChar))
             (closeParenIdxs r1) with
          | some g => some g
          | none => sepRestGroup r1)
       | _ => sepRestGroup r1)
    | none => none) ["протяженность".toList, "длительность".toList, "duration".toList]

structure RawLabels where
  title : Option (List Char) := none
  date : Option (List Char) := none
  time : Option (List Char) := none
  endv : Option (List Char) := none
  duration : Option (List Char) := none
  notes : Option (List Char) := none
deriving DecidableEq

/-- One line run against the six patterns in their dictionary order
(bot.py 260-277); a later line overwrites an earlier hit per label. -/
def applyLine (o : RawLabels) (ln : List Char) : RawLabels :=
  let o := match matchTitleLine ln with
    | some g => { o with title := some (pyStripL g) }
    | none => o
  let o := match matchLabeledLine ["дата".toList, "date".toList] ln with
    | some g => { o with date := some (pyStripL g) }
    | none => o
  let o := match matchLabeledLine ["время".toList, "time".toList] ln with
    | some g => { o with time := some (pyStripL g) }
    | none => o
  let o := match matchLabeledLine ["конец".toList, "окончание".toList, "end".toList] ln with
    | some g => { o with endv := some (pyStripL g) }
    | none => o
  let o := match matchDurationLine ln with
    | some g => { o with duration := some (pyStripL g) }
    | none => o
  let o := match matchLabeledLine
      ["заметки".toList, "описание".toList, "документы".toList, "notes".toList] ln with
    | some g => { o with notes := some (pyStripL g) }
    | none => o
  o

def firstDigitRun : List Char → Option (List Char)
  | [] => none
  | c :: r =>
    if isDigitChar c then some (c :: r.takeWhile isDigitChar) else firstDigitRun r

structure ExplicitFields where
  title : String
  start_datetime : String
  end_datetime : String
  duration_minutes : Nat
  notes : String
deriving DecidableEq

/-- `_extract_explicit_fields` (bot.py 255-318); `none` stands for the
empty-dict returns. -/
def extract_explicit_fields (s : String) : Option ExplicitFields :=
  let lines := ((pySplitlines s.toList).map pyStripL).filter (· ≠ [])
  if lines.length < 2 then none
  else
    let o := lines.foldl applyLine {}
    if o = ({} : RawLabels) then none
    else
      let title := pyStripL (o.title.getD [])
      let date_s := pyStripL (o.date.getD [])
      let time_s := pyStripL (o.time.getD [])
      let end_s := pyStripL (o.endv.getD [])
      let durationRaw := pyStripL (o.duration.getD [])
      let notes := pyStripL (o.notes.getD [])
      let durationM : Option Nat :=
        if durationRaw ≠ [] then
          match firstDigitRun durationRaw with
          | some ds =>
            let n := digitsVal ds
            some (if searchAlts unitHourAlts durationRaw then n * 60 else n)
          | none => none
        else none
      let start_datetime :=
        if date_s ≠ [] && time_s ≠ [] then date_s ++ ' ' :: time_s
        else if date_s ≠ [] then date_s
        else []
      let end_datetime :=
        if date_s ≠ [] && end_s ≠ [] then date_s ++ ' ' :: end_s else []
      let durFinal :=
        match durationM with
        | some k => if k ≠ 0 then k else 60
        | none => 60
      if title = [] && start_datetime = [] then none
      else
        some ⟨String.mk title, String.mk start_datetime, String.mk end_datetime,
              durFinal, String.mk notes⟩

/-! ### Datetimes, the collaborator environment and the handler
(`_handle_text_common`, bot.py 430-577) -/

structure Tz where
  name : String
  offsetMinutes : Int
deriving DecidableEq

/-- A Python `datetime`: wall-clock fields plus an optional `tzinfo`
(`none` is a naive timestamp). -/
structure PyDateTime where
  year : Nat
  month : Nat
  day : Nat
  hour : Nat
  minute : Nat
  second : Nat
  tz : Option Tz
deriving DecidableEq

/-- Days since 1970-01-01 for a proleptic-Gregorian civil date (the
standard days-from-civil computation, specialised to CE years). -/
def daysFromCivil (y m d : Nat) : Int :=
  let y' := if m ≤ 2 then y - 1 else y
  let era := y' / 400
  let yoe := y' % 400
  let mp := (m + 9) % 12
  let doy := (153 * mp + 2) / 5 + d - 1
  let doe := yoe * 365 + yoe / 4 - yoe / 100 + doy
  ((era * 146097 + doe : Nat) : Int) - 719468

/-- The instant of a timestamp in seconds, the measure by which Python
compares and subtracts `datetime`s.  A naive timestamp gets offset 0: in
the modelled flows comparisons and subtractions only ever happen between
two aware values (a naive/aware mix raises in Python and is modelled as a
crash where reachable). -/
def toAbsSec (t : PyDateTime) : Int :=
  daysFromCivil t.year t.month t.day * 86400 + (t.hour : Int) * 3600
    + (t.minute : Int) * 60 + (t.second : Int)
    - (match t.tz with
       | some z => z.offsetMinutes
       | none => 0) * 60

def dtLe (a b : PyDateTime) : Bool :=
  toAbsSec a ≤ toAbsSec b

/-- The JSON value found under `duration_minutes` in the primary
candidate: the shapes the handler distinguishes (absent/\x6eull, a number,
a string). -/
inductive JDur where
  | absent : JDur
  | num : Int → JDur
  | str : String → JDur
deriving DecidableEq

/-- A primary-extraction candidate (the JSON object the generative call
returns).  The schema's string fields collapse the `(data.get(...) or "")`
reads: `""` stands for a missing or empty value. -/
structure JObj where
  title : String := ""
  start_datetime : String := ""
  end_datetime : String := ""
  duration_minutes : JDur := JDur.absent
  notes : String := ""
deriving DecidableEq

/-- Python truthiness of the duration value. -/
def jdurTruthy : JDur → Bool
  | JDur.absent => false
  | JDur.num k => k ≠ 0
  | JDur.str s => s ≠ ""

/-- Python `int(x)` on the duration value (`none` models the raised
`TypeError`/`ValueError`); the `absent` branch sits behind the truthiness
test and is unreachable at the call site. -/
def pyIntOfJDur : JDur → Option Int
  | JDur.num k => some k
  | JDur.str s => pyIntOfString s
  | JDur.absent => none

/-- Modelled from the spec: the external collaborators of one message run.
`tzinfo` is `ZoneInfo(cfg.tz)` with its UTC offset; `now` is
`dt.datetime.now(ZoneInfo(cfg.tz))` (aware by construction in the source);
`freeParse` is the locale-aware free-text datetime parsing library behind
`_parse_start_datetime_fallback` (§6: configured to prefer future dates
and return timezone-aware results); `isoParse` is the standard library
`datetime.fromisoformat` (`none` for a raised `ValueError`); `primary` is
the outcome of the Primary Extraction Client call
`_openai_extract_event_json` (`error` for any raised exception: network
failure, non-JSON content, failed brace-substring recovery). -/
structure Env where
  tzinfo : Tz
  now : PyDateTime
  freeParse : String → Option PyDateTime
  isoParse : String → Option PyDateTime
  primary : Except Unit JObj

/-- Modelled from the spec: `_parse_start_datetime_fallback` (bot.py
144-157) delegates wholly to the external free-text parser, returning its
first hit or `None`. -/
def parse_start_datetime_fallback (env : Env) (s : String) : Option PyDateTime :=
  env.freeParse s

/-- Modelled from the spec: `datetime.fromisoformat` of the standard
library, as used at bot.py 501 and 507. -/
def fromisoformat (env : Env) (s : String) : Option PyDateTime :=
  env.isoParse s

/-- The argument record of a `cal.create_event` call (bot.py 456-462,
557-563): a dispatched event. -/
structure EventCall where
  title : String
  start_dt : PyDateTime
  duration_minutes : Int
  end_dt : Option PyDateTime
  description : String
deriving DecidableEq

/-- Outcome of one `_handle_text_common` run: an event dispatched to the
calendar collaborator, one of the two terminal "could not recognize"
replies (bot.py 447-450, 534-537), or an uncaught exception (which the
outer `error_handler`, bot.py 612-620, answers with the generic apology). -/
inductive HandleResult where
  | dispatched : EventCall → HandleResult
  | repliedFieldsError : HandleResult
  | repliedNoTime : HandleResult
  | crashed : HandleResult
deriving DecidableEq

/-- The naive-timestamp repair `if X.tzinfo is None: X = X.replace(tzinfo=
ZoneInfo(cfg.tz))` (bot.py 452-453, 547-551). -/
def fixTz (env : Env) (d : PyDateTime) : PyDateTime :=
  match d.tz with
  | none => { d with tz := some env.tzinfo }
  | some _ => d

def pad4 (n : Nat) : List Char :=
  let s := (toString n).toList
  List.replicate (4 - s.length) '0' ++ s

/-- `f"{base.date()}"`: the ISO date string of a timestamp. -/
def dateStr (d : PyDateTime) : String :=
  String.mk (pad4 d.year ++ '-' :: pad2 d.month ++ '-' :: pad2 d.day)

/-- `_combine_date_and_time` (bot.py 132-141).  The `dt.datetime(...)`
constructor raises on out-of-range fields; the call sites only feed
validated `HH:MM` strings from `_extract_first_time`, for which the final
guard always passes (see `combine_timeFmt`). -/
def combine_date_and_time (base : PyDateTime) (timeStr : String) (tz : Tz) :
    Option PyDateTime :=
  match pySplitOn ':' timeStr.toList with
  | [hs, ms] =>
    (match pyIntOfChars hs, pyIntOfChars ms with
     | some h, some m =>
       let tzi :=
         match base.tz with
         | some z => some z
         | none => some tz
       if 0 ≤ h && h ≤ 23 && 0 ≤ m && m ≤ 59 then
         some ⟨base.year, base.month, base.day, h.toNat, m.toNat, 0, tzi⟩
       else none
     | _, _ => none)
  | _ => none

/-- `data` after the guarded primary call (bot.py 478-481): the candidate,
or the empty dict on any exception. -/
def blendData (env : Env) : JObj :=
  match env.primary with
  | Except.ok d => d
  | Except.error _ => {}

/-- Notes of the blended path (bot.py 483-485). -/
def blendNotes (data : JObj) (n : String) : String :=
  let notes := pyStrip data.notes
  if notes = "" then extract_notes_fallback n else notes

/-- Title of the blended path (bot.py 487-491). -/
def blendTitle (data : JObj) (n : String) : String :=
  let title := pyStrip data.title
  let title :=
    if title = "" || 60 < title.length || searchAlts bannedTitleAlts title.toList then
      extract_title_fallback n
    else title
  if title = "" then fallback_title n else title

/-- Duration of the blended path,
`int(data.get("duration_minutes") or _fallback_duration_minutes(normalized) or 60)`
(bot.py 492); `none` models an uncaught conversion exception. -/
def blendDuration (data : JObj) (n : String) : Option Int :=
  if jdurTruthy data.duration_minutes then pyIntOfJDur data.duration_minutes
  else
    let fb := fallback_duration_minutes n
    some (if fb ≠ 0 then (fb : Int) else 60)

/-- Start/end resolution of the blended path (bot.py 494-520): primary ISO
strings first, then the time-range guesser recombined with a free-text
base date, then a full free-text parse. -/
def resolveStartEnd (env : Env) (data : JObj) (n : String) :
    Option PyDateTime × Option PyDateTime :=
  let start_str := pyStrip data.start_datetime
  let end_str := pyStrip data.end_datetime
  let start0 := if start_str ≠ "" then fromisoformat env start_str else none
  let end0 := if end_str ≠ "" then fromisoformat env end_str else none
  match start0 with
  | some s => (some s, end0)
  | none =>
    match extract_time_range n with
    | (some st, some et) =>
      (match parse_start_datetime_fallback env n with
       | some base =>
         let s1 := parse_start_datetime_fallback env (dateStr base ++ " " ++ st)
         let e1 := parse_start_datetime_fallback env (dateStr base ++ " " ++ et)
         ((match s1 with
           | some s => some s
           | none => parse_start_datetime_fallback env n), e1)
       | none => (parse_start_datetime_fallback env n, end0))
    | _ => (parse_start_datetime_fallback env n, end0)

/-- First repair pass (bot.py 522-531): when an explicit clock time exists
and the obtained start sits within 5 minutes of now, recombine the date
with the explicit time.  A naive start makes `start_dt - now` subtract a
naive from an aware value, which raises (uncaught). -/
def repairPass1 (env : Env) (n : String) (s : PyDateTime) : Except Unit PyDateTime :=
  match extract_first_time n with
  | none => Except.ok s
  | some tstr =>
    match s.tz with
    | none => Except.error ()
    | some _ =>
      if (toAbsSec s - toAbsSec env.now).natAbs < 300 then
        match combine_date_and_time s tstr env.tzinfo with
        | some c => Except.ok c
        | none => Except.ok s
      else Except.ok s

/-- Second, unconditional repair pass (bot.py 539-545): force the explicit
clock time whenever the start differs from it in hour or minute. -/
def repairPass2 (env : Env) (n : String) (s : PyDateTime) : PyDateTime :=
  match extract_first_time n with
  | none => s
  | some tstr =>
    match combine_date_and_time s tstr env.tzinfo with
    | some c => if s.hour ≠ c.hour || s.minute ≠ c.minute then c else s
    | none => s

/-- The end-discard step `if end_dt and end_dt <= start_dt: end_dt = None`
(bot.py 553-554). -/
def assembleEnd (e : Option PyDateTime) (s : PyDateTime) : Option PyDateTime :=
  match e with
  | none => none
  | some ee => if dtLe ee s then none else some ee

/-- The blended (no explicit fields) path of `_handle_text_common`
(bot.py 478-577), over the already-normalized text. -/
def blendedBranch (env : Env) (n : String) : HandleResult :=
  let data := blendData env
  match blendDuration data n with
  | none => HandleResult.crashed
  | some dur =>
    match (resolveStartEnd env data n).1 with
    | none => HandleResult.repliedNoTime
    | some s =>
      match repairPass1 env n s with
      | Except.error _ => HandleResult.crashed
      | Except.ok s3 =>
        let s5 := fixTz env (repairPass2 env n s3)
        let e5 := ((resolveStartEnd env data n).2).map (fixTz env)
        HandleResult.dispatched
          { title := blendTitle data n
            start_dt := s5
            duration_minutes := dur
            end_dt := assembleEnd e5 s5
            description := blendNotes data n }

/-- The explicit-fields path of `_handle_text_common` (bot.py 436-476),
over the already-normalized text. -/
def explicitBranch (env : Env) (n : String) (ex : ExplicitFields) : HandleResult :=
  let title := if pyStrip ex.title ≠ "" then pyStrip ex.title else fallback_title n
  let duration : Int := if ex.duration_minutes ≠ 0 then (ex.duration_minutes : Int) else 60
  let start_raw := pyStrip ex.start_datetime
  let end_raw := pyStrip ex.end_datetime
  let notes := pyStrip ex.notes
  let start0 :=
    if start_raw ≠ "" then parse_start_datetime_fallback env (normalize_text start_raw)
    else none
  let end0 :=
    if end_raw ≠ "" then parse_start_datetime_fallback env (normalize_text end_raw)
    else none
  match start0 with
  | none => HandleResult.repliedFieldsError
  | some s =>
    HandleResult.dispatched
      { title := title
        start_dt := fixTz env s
        duration_minutes := duration
        end_dt := end0
        description := notes }

/-- `_handle_text_common` (bot.py 430-577). -/
def handle_text_common (env : Env) (text : String) : HandleResult :=
  let normalized := normalize_text text
  match extract_explicit_fields normalized with
  | some ex => explicitBranch env normalized ex
  | none => blendedBranch env normalized

/-! ### Test environments and concrete inputs used by the claim
theorems below -/

/-- The duration-cue tokens the Duration guesser scans for. -/
def durTokens : List String :=
  [" минут", " мин", "min", "minutes", " час", " часа", " часов", "hour", "hours"]

/-- No duration cue is present in the text. -/
def durCueAbsent (s : String) : Bool :=
  durTokens.all (fun tok => (findSub (pyLowerL s.toList) tok.toList).isNone)

/-- The configured timezone of the test environments (`TZ` defaults to
Europe/Kyiv in config.py 39). -/
def kyivTz : Tz :=
  { name := "Europe/Kyiv", offsetMinutes := 120 }

def c1dt14 : PyDateTime := ⟨2026, 2, 13, 14, 0, 0, some kyivTz⟩

def c1dt13 : PyDateTime := ⟨2026, 2, 13, 13, 0, 0, some kyivTz⟩

def c1env : Env :=
  { tzinfo := kyivTz
    now := ⟨2026, 2, 1, 9, 0, 0, some kyivTz⟩
    freeParse := fun s =>
      if s = "13/02/2026 14:00" then some c1dt14
      else if s = "13/02/2026 13:00" then some c1dt13
      else none
    isoParse := fun _ => none
    primary := Except.error () }

def c1text : String := "дата - 13/02/2026\nвремя - 14:00\nконец - 13:00"

def c1wEnv : Env :=
  { tzinfo := kyivTz
    now := ⟨2026, 5, 1, 9, 0, 0, some kyivTz⟩
    freeParse := fun _ => none
    isoParse := fun s =>
      if s = "2026-05-01T18:00:00+02:00" then some ⟨2026, 5, 1, 18, 0, 0, some kyivTz⟩
      else if s = "2026-05-01T19:30:00+02:00" then some ⟨2026, 5, 1, 19, 30, 0, some kyivTz⟩
      else none
    primary := Except.ok
      { title := "Ужин"
        start_datetime := "2026-05-01T18:00:00+02:00"
        end_datetime := "2026-05-01T19:30:00+02:00"
        duration_minutes := JDur.num 90
        notes := "" } }

def c1wEv : EventCall :=
  ⟨"Ужин", ⟨2026, 5, 1, 18, 0, 0, some kyivTz⟩, 90,
   some ⟨2026, 5, 1, 19, 30, 0, some kyivTz⟩, ""⟩

def c2env : Env :=
  { tzinfo := kyivTz
    now := ⟨2026, 3, 2, 10, 2, 0, some kyivTz⟩
    freeParse := fun s =>
      if s = "созвон 15:30" then some ⟨2026, 3, 2, 10, 0, 0, some kyivTz⟩ else none
    isoParse := fun _ => none
    primary := Except.error () }

def c2ev : EventCall :=
  ⟨"Созвон", ⟨2026, 3, 2, 15, 30, 0, some kyivTz⟩, 60, none, ""⟩

def c3env : Env :=
  { tzinfo := kyivTz
    now := ⟨2026, 3, 1, 9, 0, 0, some kyivTz⟩
    freeParse := fun s =>
      if s = "встреча" then some ⟨2026, 3, 1, 10, 0, 0, some kyivTz⟩ else none
    isoParse := fun _ => none
    primary := Except.error () }

def c3ev : EventCall :=
  ⟨"Встреча", ⟨2026, 3, 1, 10, 0, 0, some kyivTz⟩, 60, none, ""⟩

def c5env : Env :=
  { tzinfo := kyivTz
    now := ⟨2026, 2, 1, 9, 0, 0, some kyivTz⟩
    freeParse := fun s =>
      if s = "13/02/2026 14:00" then some ⟨2026, 2, 13, 14, 0, 0, some kyivTz⟩ else none
    isoParse := fun _ => none
    primary := Except.error () }

def c5text : String :=
  "титул - " ++ String.mk (List.replicate 121 'a') ++ "\nдата - 13/02/2026\nвремя - 14:00"

def c5wEnv : Env :=
  { tzinfo := kyivTz
    now := ⟨2026, 3, 1, 9, 0, 0, some kyivTz⟩
    freeParse := fun s =>
      if s = "кино" then some ⟨2026, 3, 7, 20, 0, 0, some kyivTz⟩ else none
    isoParse := fun _ => none
    primary := Except.error () }

def c5wEv : EventCall :=
  ⟨"Кино", ⟨2026, 3, 7, 20, 0, 0, some kyivTz⟩, 60, none, ""⟩

def c6env : Env :=
  { tzinfo := kyivTz
    now := ⟨2026, 3, 1, 9, 0, 0, some kyivTz⟩
    freeParse := fun s =>
      if s = "обсуждение" then some ⟨2026, 3, 1, 10, 0, 0, some kyivTz⟩ else none
    isoParse := fun _ => none
    primary := Except.ok { duration_minutes := JDur.num (-30) } }

def c6ev : EventCall :=
  ⟨"Обсуждение", ⟨2026, 3, 1, 10, 0, 0, some kyivTz⟩, -30, none, ""⟩

def c6wEnv : Env :=
  { tzinfo := kyivTz
    now := ⟨2026, 3, 1, 9, 0, 0, some kyivTz⟩
    freeParse := fun s =>
      if s = "обсуждение" then some ⟨2026, 3, 1, 10, 0, 0, some kyivTz⟩ else none
    isoParse := fun _ => none
    primary := Except.ok { duration_minutes := JDur.num 45 } }

def c6wEv : EventCall :=
  ⟨"Обсуждение", ⟨2026, 3, 1, 10, 0, 0, some kyivTz⟩, 45, none, ""⟩

def c7text : String := "дата - 13.02.2026\nвремя - 12:00"

def c7bigTitle : String := "Дата - 13:02.2026\nвремя - 12:00"

def c7env : Env :=
  { tzinfo := kyivTz
    now := ⟨2026, 2, 1, 9, 0, 0, some kyivTz⟩
    freeParse := fun s =>
      if s = "13:02.2026 12:00" then some ⟨2026, 2, 13, 12, 0, 0, some kyivTz⟩ else none
    isoParse := fun _ => none
    primary := Except.error () }

def c8dt : PyDateTime := ⟨2026, 4, 5, 9, 0, 0, some kyivTz⟩

def c8env : Env :=
  { tzinfo := kyivTz
    now := ⟨2026, 4, 1, 8, 0, 0, some kyivTz⟩
    freeParse := fun _ => some c8dt
    isoParse := fun _ => none
    primary := Except.error () }

def c8ev : EventCall :=
  ⟨"Кафе", ⟨2026, 4, 5, 12, 15, 0, some kyivTz⟩, 60, none, ""⟩

def c10env : Env :=
  { tzinfo := kyivTz
    now := ⟨2026, 3, 1, 9, 0, 0, some kyivTz⟩
    freeParse := fun _ => none
    isoParse := fun _ => none
    primary := Except.ok { duration_minutes := JDur.str "abc" } }

/-! ### Helper lemmas -/

lemma stringMk_ne_empty {l : List Char} (h : l ≠ []) : String.mk l ≠ "" :=
  fun e => h (congrArg String.data e)

lemma stringMk_length (l : List Char) : (String.mk l).length = l.length := rfl

lemma digitChar_facts (d : Nat) (hd : d ≤ 9) :
    digitVal (digitChar d) = d ∧ isDigitChar (digitChar d) = true ∧
    isWsChar (digitChar d) = false ∧ digitChar d ≠ ':' ∧
    digitChar d ≠ '+' ∧ digitChar d ≠ '-' := by
  interval_cases d <;>
    exact ⟨by decide, by decide, by decide, by decide, by decide, by decide⟩

lemma pyIntOfChars_pad2 (n : Nat) (hn : n ≤ 99) :
    pyIntOfChars (pad2 n) = some ((n : Nat) : Int) := by
  obtain ⟨d1, d2, hd1, hd2, rfl⟩ :
      ∃ d1 d2, d1 ≤ 9 ∧ d2 ≤ 9 ∧ n = d1 * 10 + d2 :=
    ⟨n / 10, n % 10, by omega, by omega, by omega⟩
  have e1 : (d1 * 10 + d2) / 10 % 10 = d1 := by omega
  have e2 : (d1 * 10 + d2) % 10 = d2 := by omega
  simp only [pad2, e1, e2]
  interval_cases d1 <;> interval_cases d2 <;> decide

lemma pySplitOn_clock (c1 c2 c3 c4 : Char) (h1 : c1 ≠ ':') (h2 : c2 ≠ ':')
    (h3 : c3 ≠ ':') (h4 : c4 ≠ ':') :
    pySplitOn ':' [c1, c2, ':', c3, c4] = [[c1, c2], [c3, c4]] := by
  simp [pySplitOn, pySplitOn.go, h1, h2, h3, h4]

/-- The datetime that `_combine_date_and_time` builds from a formatted
valid clock string. -/
lemma combine_timeFmt (b : PyDateTime) (tz : Tz) (h m : Nat)
    (hh : h ≤ 23) (hm : m ≤ 59) :
    combine_date_and_time b (timeFmt h m) tz =
      some ⟨b.year, b.month, b.day, h, m, 0,
            match b.tz with
            | some z => some z
            | none => some tz⟩ := by
  have f1 := digitChar_facts (h / 10 % 10) (by omega)
  have f2 := digitChar_facts (h % 10) (by omega)
  have f3 := digitChar_facts (m / 10 % 10) (by omega)
  have f4 := digitChar_facts (m % 10) (by omega)
  have hsplit : pySplitOn ':' (timeFmt h m).toList = [pad2 h, pad2 m] := by
    show pySplitOn ':' (pad2 h ++ ':' :: pad2 m) = [pad2 h, pad2 m]
    simp only [pad2, List.cons_append, List.nil_append]
    exact pySplitOn_clock _ _ _ _ f1.2.2.2.1 f2.2.2.2.1 f3.2.2.2.1 f4.2.2.2.1
  unfold combine_date_and_time
  rw [hsplit]
  simp only [pyIntOfChars_pad2 h (by omega), pyIntOfChars_pad2 m (by omega)]
  have hguard : (0 ≤ (h : Int) && (h : Int) ≤ 23 && 0 ≤ (m : Int) && (m : Int) ≤ 59) = true := by
    simp only [Bool.and_eq_true, decide_eq_true_eq]
    refine ⟨⟨⟨by omega, by omega⟩, by omega⟩, by omega⟩
  rw [hguard]
  simp [Int.toNat_ofNat]

/-- Soundness of the first-time guesser: a returned value is always a
zero-padded in-range clock string. -/
lemma extract_first_time_sound {t : String} {s : String}
    (h : extract_first_time t = some s) :
    ∃ hh mm, hh ≤ 23 ∧ mm ≤ 59 ∧ s = timeFmt hh mm := by
  unfold extract_first_time at h
  rcases hs : firstTimeSearch t.toList with _ | ⟨g1, g2⟩
  · simp only [hs] at h
    simp at h
  · simp only [hs] at h
    simp only [Option.ite_none_right_eq_some, Option.some.injEq, Bool.and_eq_true,
      decide_eq_true_eq] at h
    exact ⟨digitsVal g1, digitsVal g2, h.1.1, h.1.2, h.2.symm⟩

lemma fixTz_hour (env : Env) (d : PyDateTime) : (fixTz env d).hour = d.hour := by
  unfold fixTz; cases d.tz <;> rfl

lemma fixTz_minute (env : Env) (d : PyDateTime) : (fixTz env d).minute = d.minute := by
  unfold fixTz; cases d.tz <;> rfl

lemma fixTz_aware (env : Env) (d : PyDateTime) : (fixTz env d).tz ≠ none := by
  unfold fixTz; cases h : d.tz <;> simp [h]

/-- After the unconditional second repair pass, the start carries exactly
the explicit clock time. -/
lemma repairPass2_spec (env : Env) (n : String) (s : PyDateTime)
    {hh mm : Nat} (hT : extract_first_time n = some (timeFmt hh mm))
    (hh23 : hh ≤ 23) (hm59 : mm ≤ 59) :
    (repairPass2 env n s).hour = hh ∧ (repairPass2 env n s).minute = mm := by
  unfold repairPass2
  simp only [hT, combine_timeFmt s env.tzinfo hh mm hh23 hm59]
  split
  · exact ⟨rfl, rfl⟩
  · rename_i hc
    have hc' : s.hour = hh ∧ s.minute = mm := by
      simpa using hc
    exact ⟨hc'.1, hc'.2⟩

lemma assembleEnd_inv {e : Option PyDateTime} {s x : PyDateTime}
    (h : assembleEnd e s = some x) :
    e = some x ∧ dtLe x s = false := by
  unfold assembleEnd at h
  rcases e with _ | ee
  · simp at h
  · by_cases hc : dtLe ee s = true
    · simp [hc] at h
    · have hc' : dtLe ee s = false := by simpa using hc
      simp only [hc', Bool.false_eq_true, if_false] at h
      cases h
      exact ⟨rfl, hc'⟩

/-- Dispatch inversion for the blended path. -/
lemma blended_inv {env : Env} {n : String} {ev : EventCall}
    (h : blendedBranch env n = HandleResult.dispatched ev) :
    ∃ dur s s3,
      blendDuration (blendData env) n = some dur ∧
      (resolveStartEnd env (blendData env) n).1 = some s ∧
      repairPass1 env n s = Except.ok s3 ∧
      ev = { title := blendTitle (blendData env) n
             start_dt := fixTz env (repairPass2 env n s3)
             duration_minutes := dur
             end_dt := assembleEnd
               (((resolveStartEnd env (blendData env) n).2).map (fixTz env))
               (fixTz env (repairPass2 env n s3))
             description := blendNotes (blendData env) n } := by
  simp only [blendedBranch] at h
  rcases hdur : blendDuration (blendData env) n with _ | dur
  · simp only [hdur] at h
    exact absurd h (by simp)
  · simp only [hdur] at h
    rcases hs : (resolveStartEnd env (blendData env) n).1 with _ | s
    · simp only [hs] at h
      exact absurd h (by simp)
    · simp only [hs] at h
      rcases hp : repairPass1 env n s with e | s3
      · simp only [hp] at h
        exact absurd h (by simp)
      · simp only [hp] at h
        refine ⟨dur, s, s3, rfl, rfl, hp, ?_⟩
        injection h with h'
        exact h'.symm

/-- Dispatch inversion for the explicit-fields path. -/
lemma explicit_inv {env : Env} {n : String} {ex : ExplicitFields} {ev : EventCall}
    (h : explicitBranch env n ex = HandleResult.dispatched ev) :
    ∃ s,
      (if pyStrip ex.start_datetime ≠ "" then
          parse_start_datetime_fallback env (normalize_text (pyStrip ex.start_datetime))
        else none) = some s ∧
      ev = { title := if pyStrip ex.title ≠ "" then pyStrip ex.title else fallback_title n
             start_dt := fixTz env s
             duration_minutes :=
               if ex.duration_minutes ≠ 0 then (ex.duration_minutes : Int) else 60
             end_dt :=
               if pyStrip ex.end_datetime ≠ "" then
                 parse_start_datetime_fallback env (normalize_text (pyStrip ex.end_datetime))
               else none
             description := pyStrip ex.notes } := by
  simp only [explicitBranch] at h
  rcases hs : (if pyStrip ex.start_datetime ≠ "" then
      parse_start_datetime_fallback env (normalize_text (pyStrip ex.start_datetime))
    else none) with _ | s
  · simp only [hs] at h
    exact absurd h (by simp)
  · simp only [hs] at h
    refine ⟨s, rfl, ?_⟩
    injection h with h'
    exact h'.symm

lemma pyCapitalize_length (l : List Char) : (pyCapitalize l).length = l.length := by
  cases l <;> simp [pyCapitalize, pyLowerL]

lemma cap_take_bounds (t : List Char) (k : Nat) (ht : t ≠ []) (hk : 0 < k) :
    String.mk (pyCapitalize (t.take k)) ≠ "" ∧
    (String.mk (pyCapitalize (t.take k))).length ≤ k := by
  constructor
  · apply stringMk_ne_empty
    have : (pyCapitalize (t.take k)).length ≠ 0 := by
      rw [pyCapitalize_length, List.length_take]
      rcases t with _ | ⟨c, r⟩
      · exact absurd rfl ht
      · simp; omega
    exact fun e => this (by rw [e]; rfl)
  · rw [stringMk_length, pyCapitalize_length, List.length_take]
    omega

lemma fallback_title_bounds (s : String) :
    fallback_title s ≠ "" ∧ (fallback_title s).length ≤ 120 := by
  simp only [fallback_title]
  split
  · exact ⟨by decide, by decide⟩
  split
  · exact ⟨by decide, by decide⟩
  split
  · exact ⟨by decide, by decide⟩
  split
  · exact ⟨by decide, by decide⟩
  next ht => exact cap_take_bounds _ 120 ht (by omega)

lemma extract_title_fallback_bounds (s : String) :
    extract_title_fallback s ≠ "" ∧ (extract_title_fallback s).length ≤ 80 := by
  simp only [extract_title_fallback]
  split
  · exact ⟨by decide, by decide⟩
  split
  · exact ⟨by decide, by decide⟩
  split
  · exact ⟨by decide, by decide⟩
  next ht => exact cap_take_bounds _ 80 ht (by omega)

/-- The blended title is always non-empty and at most 80 characters when it
comes from a guesser, at most 60 when the primary title is kept. -/
lemma blendTitle_bounds (data : JObj) (n : String) :
    blendTitle data n ≠ "" ∧ (blendTitle data n).length ≤ 120 := by
  simp only [blendTitle]
  by_cases hcond : (pyStrip data.title = "" || 60 < (pyStrip data.title).length
      || searchAlts bannedTitleAlts (pyStrip data.title).toList) = true
  · rw [if_pos hcond, if_neg (extract_title_fallback_bounds n).1]
    exact ⟨(extract_title_fallback_bounds n).1,
           le_trans (extract_title_fallback_bounds n).2 (by omega)⟩
  · rw [if_neg hcond]
    have hk : pyStrip data.title ≠ "" ∧ (pyStrip data.title).length ≤ 60 := by
      simp only [Bool.or_eq_true, decide_eq_true_eq] at hcond
      push_neg at hcond
      exact ⟨hcond.1.1, hcond.1.2⟩
    rw [if_neg hk.1]
    exact ⟨hk.1, le_trans hk.2 (by omega)⟩

lemma durTryToken_spec {lw tok : List Char} {lo hi mult k : Nat}
    (h : durTryToken lw tok lo hi mult = some k) :
    ∃ num, lo ≤ num ∧ num ≤ hi ∧ k = num * mult := by
  simp only [durTryToken] at h
  rcases hf : findSub lw tok with _ | i
  · simp only [hf] at h
    exact absurd h (by simp)
  · simp only [hf] at h
    rcases hg : (pySplitWs (lw.take i)).getLast? with _ | w
    · simp only [hg] at h
      exact absurd h (by simp)
    · simp only [hg] at h
      by_cases hd : w.filter isDigitChar = []
      · rw [if_pos hd] at h
        exact absurd h (by simp)
      · rw [if_neg hd] at h
        split at h
        · rename_i hb
          have hb' : lo ≤ digitsVal (w.filter isDigitChar) ∧
              digitsVal (w.filter isDigitChar) ≤ hi := by simpa using hb
          exact ⟨digitsVal (w.filter isDigitChar), hb'.1, hb'.2,
                 (Option.some.inj h).symm⟩
        · exact absurd h (by simp)

lemma fallback_duration_minutes_pos (s : String) :
    0 < fallback_duration_minutes s := by
  simp only [fallback_duration_minutes]
  repeat' split
  all_goals try omega
  all_goals
    rename_i k hk
  all_goals
    obtain ⟨num, h1, h2, rfl⟩ := durTryToken_spec hk
  all_goals omega

lemma durTryToken_of_findSub_none {lw tok : List Char}
    (hf : findSub lw tok = none) (lo hi mult : Nat) :
    durTryToken lw tok lo hi mult = none := by
  simp [durTryToken, hf]

lemma durCueAbsent_60 {s : String} (h : durCueAbsent s = true) :
    fallback_duration_minutes s = 60 := by
  simp only [durCueAbsent, durTokens, List.all_cons, List.all_nil, Bool.and_eq_true,
    Option.isNone_iff_eq_none, Bool.and_true] at h
  obtain ⟨h1, h2, h3, h4, h5, h6, h7, h8, h9⟩ := h
  simp only [fallback_duration_minutes]
  rw [durTryToken_of_findSub_none h1 5 1440 1, durTryToken_of_findSub_none h2 5 1440 1,
    durTryToken_of_findSub_none h3 5 1440 1, durTryToken_of_findSub_none h4 5 1440 1,
    durTryToken_of_findSub_none h5 1 24 60, durTryToken_of_findSub_none h6 1 24 60,
    durTryToken_of_findSub_none h7 1 24 60, durTryToken_of_findSub_none h8 1 24 60,
    durTryToken_of_findSub_none h9 1 24 60]

lemma blendTitle_empty (n : String) :
    blendTitle {} n = extract_title_fallback n := by
  have hc : (pyStrip ({} : JObj).title = "" || 60 < (pyStrip ({} : JObj).title).length
      || searchAlts bannedTitleAlts (pyStrip ({} : JObj).title).toList) = true := by decide
  simp only [blendTitle]
  rw [if_pos hc, if_neg (extract_title_fallback_bounds n).1]

lemma blendNotes_empty (n : String) :
    blendNotes {} n = extract_notes_fallback n := rfl

lemma blendDuration_falsy {data : JObj} (n : String)
    (ht : jdurTruthy data.duration_minutes = false) :
    blendDuration data n = some ((fallback_duration_minutes n : Nat) : Int) := by
  have hfb := fallback_duration_minutes_pos n
  simp only [blendDuration]
  rw [if_neg (by simp [ht]), if_pos (by omega : fallback_duration_minutes n ≠ 0)]

lemma blendDuration_truthy {data : JObj} (n : String)
    (ht : jdurTruthy data.duration_minutes = true) :
    blendDuration data n = pyIntOfJDur data.duration_minutes := by
  simp only [blendDuration]
  rw [if_pos ht]

/-! ### Claim theorems -/

/-- Claim C1 (amended): on the blended path every dispatched event has its
end absent or strictly after its start — an end at or before the start is
discarded before dispatch.  The explicit-fields path performs no such
check (see the counterexample). -/
theorem c1_theorem (env : Env) (n : String) (ev : EventCall) (e : PyDateTime)
    (hD : blendedBranch env n = HandleResult.dispatched ev)
    (hE : ev.end_dt = some e) :
    dtLe e ev.start_dt = false ∧ toAbsSec ev.start_dt < toAbsSec e := by
  obtain ⟨dur, s, s3, -, -, -, rfl⟩ := blended_inv hD
  obtain ⟨-, hle⟩ := assembleEnd_inv hE
  refine ⟨hle, ?_⟩
  have h2 : ¬ (toAbsSec e ≤ toAbsSec (fixTz env (repairPass2 env n s3))) := by
    simpa [dtLe] using hle
  show toAbsSec (fixTz env (repairPass2 env n s3)) < toAbsSec e
  omega

/-- Claim C1 counterexample: on the explicit-fields path the very same
handler dispatches an event whose end (13:00) is at or before its start
(14:00) — the discard step of bot.py 553-554 has no counterpart in the
explicit branch (bot.py 437-476). -/
theorem c1_counterexample :
    handle_text_common c1env c1text =
      HandleResult.dispatched
        { title := "Дата - 13/02/2026\nвремя - 14:00\nконец - 13:00"
          start_dt := c1dt14
          duration_minutes := 60
          end_dt := some c1dt13
          description := "" } ∧
    dtLe c1dt13 c1dt14 = true :=
  ⟨by decide, by decide⟩

/-- Claim C1 witness: a concrete blended dispatch with a present end, on
which the amended theorem yields end strictly after start. -/
theorem c1_witness :
    blendedBranch c1wEnv "ужин" = HandleResult.dispatched c1wEv ∧
    dtLe ⟨2026, 5, 1, 19, 30, 0, some kyivTz⟩ c1wEv.start_dt = false ∧
    toAbsSec c1wEv.start_dt < toAbsSec (⟨2026, 5, 1, 19, 30, 0, some kyivTz⟩ : PyDateTime) :=
  ⟨by decide,
   ( c1_theorem c1wEnv "ужин" c1wEv ⟨2026, 5, 1, 19, 30, 0, some kyivTz⟩
     (by decide) (by decide)).1,
   ( c1_theorem c1wEnv "ужин" c1wEv ⟨2026, 5, 1, 19, 30, 0, some kyivTz⟩
     (by decide) (by decide)).2⟩

/-- Claim C2: on the blended path, whenever the First-time guesser finds
an explicit valid HH:MM in the normalized text, any dispatched start
carries exactly that hour and minute, whatever the primary extraction or
the free-text parse produced. -/
theorem c2_theorem (env : Env) (n : String) (ev : EventCall) (hh mm : Nat)
    (hT : extract_first_time n = some (timeFmt hh mm)) (hh23 : hh ≤ 23) (hm59 : mm ≤ 59)
    (hD : blendedBranch env n = HandleResult.dispatched ev) :
    ev.start_dt.hour = hh ∧ ev.start_dt.minute = mm := by
  obtain ⟨dur, s, s3, -, -, -, rfl⟩ := blended_inv hD
  constructor
  · show (fixTz env (repairPass2 env n s3)).hour = hh
    rw [fixTz_hour]
    exact (repairPass2_spec env n s3 hT hh23 hm59).1
  · show (fixTz env (repairPass2 env n s3)).minute = mm
    rw [fixTz_minute]
    exact (repairPass2_spec env n s3 hT hh23 hm59).2

/-- Claim C2 witness: the free-text parse lost the 15:30 and returned a
time near now; both repair passes force 15:30 back into the dispatched
start. -/
theorem c2_witness :
    blendedBranch c2env "созвон 15:30" = HandleResult.dispatched c2ev ∧
    c2ev.start_dt.hour = 15 ∧ c2ev.start_dt.minute = 30 :=
  ⟨by decide,
   c2_theorem c2env "созвон 15:30" c2ev 15 30 (by decide) (by decide) (by decide) (by decide)⟩

/-- Claim C3: when the Primary Extraction call fails, the blended pipeline
continues with the empty candidate: title, notes and duration of any
dispatched event come from the heuristic extractors, the duration being 60
whenever no duration cue occurs in the text. -/
theorem c3_theorem (env : Env) (n : String) (ev : EventCall)
    (hFail : env.primary = Except.error ())
    (hD : blendedBranch env n = HandleResult.dispatched ev) :
    ev.title = extract_title_fallback n ∧
    ev.description = extract_notes_fallback n ∧
    ev.duration_minutes = ((fallback_duration_minutes n : Nat) : Int) ∧
    (durCueAbsent n = true → ev.duration_minutes = 60) := by
  have hdata : blendData env = {} := by
    unfold blendData
    rw [hFail]
  obtain ⟨dur, s, s3, hdur, -, -, rfl⟩ := blended_inv hD
  rw [hdata] at hdur
  rw [blendDuration_falsy n (by rfl)] at hdur
  have hdur' : dur = ((fallback_duration_minutes n : Nat) : Int) :=
    (Option.some.inj hdur).symm
  refine ⟨?_, ?_, hdur', ?_⟩
  · show blendTitle (blendData env) n = extract_title_fallback n
    rw [hdata, blendTitle_empty]
  · show blendNotes (blendData env) n = extract_notes_fallback n
    rw [hdata, blendNotes_empty]
  · intro hcue
    show dur = 60
    rw [hdur', durCueAbsent_60 hcue]
    rfl

/-- Claim C3 witness: a failed primary call on a cue-less message still
dispatches, with every field heuristic and duration 60. -/
theorem c3_witness :
    blendedBranch c3env "встреча" = HandleResult.dispatched c3ev ∧
    (c3ev.title = extract_title_fallback "встреча" ∧
     c3ev.description = extract_notes_fallback "встреча" ∧
     c3ev.duration_minutes = ((fallback_duration_minutes "встреча" : Nat) : Int) ∧
     (durCueAbsent "встреча" = true → c3ev.duration_minutes = 60)) :=
  ⟨by decide, c3_theorem c3env "встреча" c3ev rfl (by decide)⟩

/-- Claim C4 (amended): the first-time guesser validates only the first
`\b\d{1,2}:\d{2}\b` match of the text: when that match is in range it is
returned zero-padded, and otherwise the result is absent even if a later
valid pair exists. -/
theorem c4_theorem (t : String) :
    (∀ s, extract_first_time t = some s →
        ∃ hh mm, hh ≤ 23 ∧ mm ≤ 59 ∧ s = timeFmt hh mm) ∧
    (∀ g1 g2, firstTimeSearch t.toList = some (g1, g2) →
        (digitsVal g1 ≤ 23 ∧ digitsVal g2 ≤ 59 →
            extract_first_time t = some (timeFmt (digitsVal g1) (digitsVal g2))) ∧
        (¬(digitsVal g1 ≤ 23 ∧ digitsVal g2 ≤ 59) → extract_first_time t = none)) := by
  constructor
  · intro s h
    exact extract_first_time_sound h
  · intro g1 g2 hg
    have hg' : firstTimeSearch t.data = some (g1, g2) := hg
    constructor
    · intro hb
      unfold extract_first_time
      simp only [hg, hg']
      rw [if_pos (by simp [hb.1, hb.2])]
    · intro hb
      unfold extract_first_time
      simp only [hg, hg']
      rw [if_neg fun hc => hb (by simpa using hc)]

/-- Claim C4 counterexample: "99:99 12:30" contains the valid pair 12:30,
yet the guesser returns absent, because the first regex match (99:99) is
out of range; on "12:30" alone the very same pair is returned. -/
theorem c4_counterexample :
    extract_first_time "99:99 12:30" = none ∧
    extract_first_time "12:30" = some "12:30" :=
  ⟨by decide, by decide⟩

/-- Claim C4 witness: the amended theorem at a concrete text. -/
theorem c4_witness :
    ∃ hh mm, hh ≤ 23 ∧ mm ≤ 59 ∧ "09:05" = timeFmt hh mm :=
  ( c4_theorem "встреча в 9:05").1 "09:05" (by decide)

/-- Claim C5 (amended): on the blended path every dispatched title is
non-empty and at most 120 characters (indeed at most 80 when a guesser
supplies it, at most 60 when the primary title is kept); the explicit-fields
path passes the explicit title through unmodified and can exceed 120 (see
the counterexample). -/
theorem c5_theorem (env : Env) (n : String) (ev : EventCall)
    (hD : blendedBranch env n = HandleResult.dispatched ev) :
    ev.title ≠ "" ∧ ev.title.length ≤ 120 := by
  obtain ⟨dur, s, s3, -, -, -, rfl⟩ := blended_inv hD
  exact blendTitle_bounds (blendData env) n

/-- Claim C5 counterexample: an explicit title field of 121 characters is
dispatched unmodified by the explicit-fields path. -/
theorem c5_counterexample :
    handle_text_common c5env c5text =
      HandleResult.dispatched
        { title := String.mk (List.replicate 121 'a')
          start_dt := ⟨2026, 2, 13, 14, 0, 0, some kyivTz⟩
          duration_minutes := 60
          end_dt := none
          description := "" } ∧
    120 < (String.mk (List.replicate 121 'a')).length :=
  ⟨by decide, by decide⟩

/-- Claim C5 witness: a concrete blended dispatch with a guesser title,
within the bounds. -/
theorem c5_witness :
    blendedBranch c5wEnv "кино" = HandleResult.dispatched c5wEv ∧
    c5wEv.title ≠ "" ∧ c5wEv.title.length ≤ 120 :=
  ⟨by decide, c5_theorem c5wEnv "кино" c5wEv (by decide)⟩

/-- Claim C6 (amended): on the blended path a nonzero numeric primary
duration is used as the final duration whether or not it is positive,
while an absent, zero or empty one falls back to the Duration guesser; the
positivity requirement of the claim is not enforced (see the
counterexample, where -30 is dispatched). -/
theorem c6_theorem (env : Env) (n : String) (ev : EventCall)
    (hD : blendedBranch env n = HandleResult.dispatched ev) :
    (∀ k : Int, (blendData env).duration_minutes = JDur.num k → k ≠ 0 →
        ev.duration_minutes = k) ∧
    (jdurTruthy (blendData env).duration_minutes = false →
        ev.duration_minutes = ((fallback_duration_minutes n : Nat) : Int)) := by
  obtain ⟨dur, s, s3, hdur, -, -, rfl⟩ := blended_inv hD
  constructor
  · intro k hk hknz
    rw [blendDuration_truthy n (by rw [hk]; simp [jdurTruthy, hknz])] at hdur
    rw [hk] at hdur
    have hdur' : (some k : Option Int) = some dur := hdur
    exact (Option.some.inj hdur').symm
  · intro hfalse
    rw [blendDuration_falsy n hfalse] at hdur
    exact (Option.some.inj hdur).symm

/-- Claim C6 counterexample: a present but negative primary duration (-30)
is truthy, so it is dispatched as the final duration instead of falling
back to the guesser (which would say 60). -/
theorem c6_counterexample :
    blendedBranch c6env "обсуждение" = HandleResult.dispatched c6ev ∧
    c6ev.duration_minutes = -30 ∧ ¬ (0 < c6ev.duration_minutes) ∧
    fallback_duration_minutes "обсуждение" = 60 :=
  ⟨by decide, by decide, by decide, by decide⟩

/-- Claim C6 witness: a positive primary duration (45) is dispatched. -/
theorem c6_witness :
    blendedBranch c6wEnv "обсуждение" = HandleResult.dispatched c6wEv ∧
    c6wEv.duration_minutes = 45 :=
  ⟨by decide,
   ( c6_theorem c6wEnv "обсуждение" c6wEv (by decide)).1 45 rfl (by decide)⟩

/-- Claim C7 (amended): for the scenario-2 input the explicit-fields path
fires, but the dispatched title is the capitalized normalized message (the
title guesser strips nothing from it), not the placeholder "Встреча"; the
normalizer has also rewritten the dotted date ("13.02.2026" becomes
"13:02.2026"), so the start is whatever the external free-text parser
returns for "13:02.2026 12:00" (given the default timezone when naive),
and the duration is 60. -/
theorem c7_theorem (env : Env) (d : PyDateTime)
    (hP : env.freeParse "13:02.2026 12:00" = some d) :
    handle_text_common env c7text =
      HandleResult.dispatched
        { title := c7bigTitle
          start_dt := fixTz env d
          duration_minutes := 60
          end_dt := none
          description := "" } := by
  have hnorm : normalize_text c7text = "дата - 13:02.2026\nвремя - 12:00" := by decide
  have hex : extract_explicit_fields "дата - 13:02.2026\nвремя - 12:00" =
      some ⟨"", "13:02.2026 12:00", "", 60, ""⟩ := by decide
  have e1 : pyStrip "" = "" := by decide
  have e2 : fallback_title "дата - 13:02.2026\nвремя - 12:00" = c7bigTitle := by decide
  have e3 : pyStrip "13:02.2026 12:00" = "13:02.2026 12:00" := by decide
  have e4 : normalize_text "13:02.2026 12:00" = "13:02.2026 12:00" := by decide
  simp [handle_text_common, hnorm, hex, explicitBranch, e1, e2, e3, e4,
    parse_start_datetime_fallback, hP]

/-- Claim C7 counterexample: under a parser that still recovers
2026-02-13 12:00 from the corrupted string, the dispatched title is the
whole capitalized message, not the placeholder "Встреча" the claim
requires. -/
theorem c7_counterexample :
    handle_text_common c7env c7text =
      HandleResult.dispatched
        { title := c7bigTitle
          start_dt := ⟨2026, 2, 13, 12, 0, 0, some kyivTz⟩
          duration_minutes := 60
          end_dt := none
          description := "" } ∧
    c7bigTitle ≠ "Встреча" :=
  ⟨by decide, by decide⟩

/-- Claim C7 witness: the amended theorem at the concrete environment. -/
theorem c7_witness :
    handle_text_common c7env c7text =
      HandleResult.dispatched
        { title := c7bigTitle
          start_dt := fixTz c7env ⟨2026, 2, 13, 12, 0, 0, some kyivTz⟩
          duration_minutes := 60
          end_dt := none
          description := "" } :=
  c7_theorem c7env ⟨2026, 2, 13, 12, 0, 0, some kyivTz⟩ (by decide)

/-- Claim C8: under the §6 contract that the external free-text parser
returns timezone-aware results, every dispatched event — on both paths —
carries an aware start and (when present) an aware end: every naive
timestamp has been assigned the configured default timezone before
dispatch. -/
theorem c8_theorem (env : Env) (t : String) (ev : EventCall)
    (hAware : ∀ s d, env.freeParse s = some d → d.tz ≠ none)
    (hD : handle_text_common env t = HandleResult.dispatched ev) :
    ev.start_dt.tz ≠ none ∧ (∀ e, ev.end_dt = some e → e.tz ≠ none) := by
  simp only [handle_text_common] at hD
  rcases hex : extract_explicit_fields (normalize_text t) with _ | ex
  · simp only [hex] at hD
    obtain ⟨dur, s, s3, -, -, -, rfl⟩ := blended_inv hD
    constructor
    · exact fixTz_aware env (repairPass2 env (normalize_text t) s3)
    · intro e he
      obtain ⟨hmem, -⟩ := assembleEnd_inv he
      rcases hX : (resolveStartEnd env (blendData env) (normalize_text t)).2 with _ | y
      · rw [hX] at hmem
        simp at hmem
      · rw [hX] at hmem
        have hfe : fixTz env y = e := by simpa using hmem
        exact hfe ▸ fixTz_aware env y
  · simp only [hex] at hD
    obtain ⟨s, hs, rfl⟩ := explicit_inv hD
    constructor
    · exact fixTz_aware env s
    · intro e he
      by_cases hc : pyStrip ex.end_datetime ≠ ""
      · rw [if_pos hc] at he
        exact hAware _ _ he
      · rw [if_neg hc] at he
        simp at he

/-- Claim C8 witness: with an everywhere-aware parser, a concrete dispatch
has aware timestamps. -/
theorem c8_witness :
    handle_text_common c8env "кафе 12:15" = HandleResult.dispatched c8ev ∧
    c8ev.start_dt.tz ≠ none ∧ (∀ e, c8ev.end_dt = some e → e.tz ≠ none) :=
  ⟨by decide,
   c8_theorem c8env "кафе 12:15" c8ev
     (fun _ d h => (Option.some.inj h) ▸ (show c8dt.tz ≠ none by decide))
     (by decide)⟩

/-- Claim C9 (amended): the Text Normalizer is a total function and is
idempotent on already-canonical text — every fixed point stays fixed under
a second application; it is not idempotent on arbitrary input (see the
counterexample "12-34-56"). -/
theorem c9_theorem (x : String) (h : normalize_text x = x) :
    normalize_text (normalize_text x) = normalize_text x := by
  rw [h, h]

/-- Claim C9 counterexample: the dash rewrite consumes "12-34" on the
first pass, leaving "-56" unscanned; the second pass then rewrites
"34-56", so normalize∘normalize differs from normalize at "12-34-56". -/
theorem c9_counterexample :
    normalize_text "12-34-56" = "12:34-56" ∧
    normalize_text (normalize_text "12-34-56") = "12:34:56" ∧
    normalize_text (normalize_text "12-34-56") ≠ normalize_text "12-34-56" :=
  ⟨by decide, by decide, by decide⟩

/-- Claim C9 witness: a canonical text is a fixed point. -/
theorem c9_witness :
    normalize_text (normalize_text "встреча 14:00") = normalize_text "встреча 14:00" :=
  c9_theorem "встреча 14:00" (by decide)

/-- Claim C10: the duration conversion of the blended path is partial — a
truthy primary `duration_minutes` that is not convertible by `int(...)`
(such as the string "abc") raises out of the handler (the generic
unhandled-error reply), while an absent, zero, empty or integer value
never raises at this step. -/
theorem c10_theorem :
    blendedBranch c10env "встреча завтра" = HandleResult.crashed ∧
    blendDuration (blendData c10env) "встреча завтра" = none ∧
    (∀ (data : JObj) (n : String),
        (data.duration_minutes = JDur.absent ∨
         (∃ k : Int, data.duration_minutes = JDur.num k) ∨
         data.duration_minutes = JDur.str "") →
        (blendDuration data n).isSome = true) := by
  refine ⟨by decide, by decide, ?_⟩
  intro data n hok
  rcases hok with h | ⟨k, h⟩ | h
  · rw [blendDuration_falsy n (by rw [h]; rfl)]
    rfl
  · by_cases hz : k = 0
    · subst hz
      rw [blendDuration_falsy n (by rw [h]; decide)]
      rfl
    · rw [blendDuration_truthy n (by rw [h]; simp [jdurTruthy, hz])]
      rw [h]
      rfl
  · rw [blendDuration_falsy n (by rw [h]; decide)]
    rfl

/-- Claim C10 witness: an integer primary duration converts without an
exception. -/
theorem c10_witness :
    (blendDuration { duration_minutes := JDur.num 45 } "планёрка").isSome = true :=
  c10_theorem.2.2 { duration_minutes := JDur.num 45 } "планёрка" (Or.inr (Or.inl ⟨45, rfl⟩))

end CalendarBot
